import Mathlib

/-!
GitGenieAI — verification of the guardrail pipeline.

Shallow embedding of the core service layer of the GitGenieAI repository:
the `OpenAIService` class (input validation, sensitive-pattern redaction,
prompt-injection detection, content moderation, output reconciliation,
and the two orchestrator pipelines) and the `RateLimiter` class.

Modelling conventions:
* JavaScript strings are modelled as `List Char` (`JStr`).  JS `.length`,
  `.substring`, `.toLowerCase`, `.trim`, `.split` count UTF-16 code units;
  on the ASCII strings involved in the statements below this coincides with
  the `List Char` operations used here.
* JS regular expressions are modelled by a small backtracking engine (`RE`)
  whose alternatives are produced in the same priority order as a JS engine
  (greedy quantifiers, leftmost match, `g`-flag replacement continuing after
  each match).  The quantified subexpressions of every pattern appearing in
  the source are single character classes, which keeps the engine total.
* JS runtime values flowing out of `JSON.parse` are modelled by `JSVal`;
  operations that would raise a `TypeError` at runtime are modelled in
  `Except String` with a descriptive message.
* Each call models a single invocation with fresh regex state
  (`lastIndex = 0`), as holds on a freshly constructed service instance.
-/

set_option maxRecDepth 10000

namespace GitGenie

/-- JS strings, as lists of UTF-16 units (ASCII-faithful). -/
abbrev JStr := List Char

/-- Convert a Lean string literal to a modelled JS string. -/
def str (s : String) : JStr := s.data

/-- The JS regex `\s` / `String.prototype.trim` whitespace class
(ASCII part plus NBSP and BOM; the exotic Unicode spaces are irrelevant
to every statement below). -/
def isJsWs (c : Char) : Bool :=
  c == ' ' || c == '\t' || c == '\n' || c == '\r' || c == '\x0b' || c == '\x0c'
    || c == Char.ofNat 0xa0 || c == Char.ofNat 0xfeff

/-- JS `String.prototype.toLowerCase` (ASCII mapping; the patterns involved
are all ASCII literals). -/
def jsToLower (s : JStr) : JStr := s.map Char.toLower

/-- JS `String.prototype.trim`. -/
def jsTrim (s : JStr) : JStr :=
  ((s.dropWhile isJsWs).reverse.dropWhile isJsWs).reverse

/-- JS `\w` class: `[A-Za-z0-9_]`. -/
def isWordChar (c : Char) : Bool := c.isAlphanum || c == '_'

/-! ## Regex engine

A tiny backtracking regular-expression engine.  `RE.mtch r s` returns the
list of possible remainders of `s` after matching a prefix against `r`,
in JS backtracking priority order (first element = the match the JS engine
commits to).  Quantifiers are restricted to character classes, which is all
the source patterns use, and makes the recursion structural. -/

inductive RE where
  /-- empty-string regex -/
  | eps : RE
  /-- a single character satisfying the class predicate -/
  | cls (f : Char → Bool) : RE
  /-- concatenation -/
  | seq (a b : RE) : RE
  /-- alternation, left preferred (JS tries alternatives left to right) -/
  | alt (a b : RE) : RE
  /-- greedy `[..]*` over a character class -/
  | starCls (f : Char → Bool) : RE
  /-- greedy `(..)?`, present preferred -/
  | opt (r : RE) : RE

/-- Remainders after greedily matching `[..]*`: longest consumption first,
exactly the JS backtracking order for a greedy class star. -/
def starRem (f : Char → Bool) : JStr → List JStr
  | [] => [[]]
  | c :: rest =>
    if f c then starRem f rest ++ [c :: rest] else [c :: rest]

/-- All remainders of `s` after matching a prefix against `r`, in JS
backtracking priority order. -/
def RE.mtch : RE → JStr → List JStr
  | .eps, s => [s]
  | .cls _, [] => []
  | .cls f, c :: rest => if f c then [rest] else []
  | .seq a b, s => (a.mtch s).flatMap b.mtch
  | .alt a b, s => a.mtch s ++ b.mtch s
  | .starCls f, s => starRem f s
  | .opt r, s => r.mtch s ++ [s]

/-- Sequence a list of regexes. -/
def reSeq (l : List RE) : RE := l.foldr RE.seq RE.eps

/-- Case-insensitive literal (the `i` flag on an ASCII literal). -/
def ciLit (w : String) : RE :=
  reSeq (w.data.map fun a => RE.cls (fun c => c.toLower == a))

/-- Greedy `[..]+` over a character class. -/
def plusCls (f : Char → Bool) : RE := .seq (.cls f) (.starCls f)

/-- Pattern `\s+`. -/
def reWs : RE := plusCls isJsWs

/-- Does a match of `r` start at the beginning of `s`? -/
def matchesAt (r : RE) (s : JStr) : Bool := !(r.mtch s).isEmpty

/-- JS `RegExp.prototype.test` with `lastIndex = 0`: does any position of
`s` start a match of `r`?  (Leftmost scan, as in JS.) -/
def hasMatch (r : RE) : JStr → Bool
  | [] => matchesAt r []
  | s@(_ :: rest) => matchesAt r s || hasMatch r rest

/-- JS `String.prototype.replace` with a `g`-flag regex and a plain
replacement string: scan left to right; at each position commit to the
engine's first match, emit the replacement, and continue after the match
(one character ahead if the match was empty — never the case for the
source's patterns, each of which requires at least one character). -/
def replaceAllF (r : RE) (rep : JStr) : Nat → JStr → JStr
  | _, [] => []
  | 0, s => s
  | fuel + 1, c :: rest =>
    match (r.mtch (c :: rest)).head? with
    | some rem =>
      if rem.length < rest.length + 1 then rep ++ replaceAllF r rep fuel rem
      else rep ++ c :: replaceAllF r rep fuel rest
    | none => c :: replaceAllF r rep fuel rest

/-- Entry point of the scan; the fuel `s.length` never runs out, because
every recursive call strictly shortens the string. -/
def replaceAll (r : RE) (rep : JStr) (s : JStr) : JStr :=
  replaceAllF r rep s.length s

/-- Substring containment on modelled JS strings. -/
def containsSub (pat : JStr) : JStr → Bool
  | [] => pat.isEmpty
  | s@(_ :: rest) => pat.isPrefixOf s || containsSub pat rest

/-! ## The source's regular expressions

`OpenAIService.FORBIDDEN_PATTERNS` and
`OpenAIService.PROMPT_INJECTION_PATTERNS`, pattern by pattern. -/

/-- Character class `[\w!@#$%^&*()]` of `/password[:\s=]*[\w!@#$%^&*()]+/gi`. -/
def isPasswordValChar (c : Char) : Bool :=
  isWordChar c || c == '!' || c == '@' || c == '#' || c == '$' || c == '%'
    || c == '^' || c == '&' || c == '*' || c == '(' || c == ')'

/-- Character class `[:\s=]`. -/
def isSepChar (c : Char) : Bool := c == ':' || isJsWs c || c == '='

/-- Character class `[\w-]`. -/
def isWordDashChar (c : Char) : Bool := isWordChar c || c == '-'

/-- Pattern `/password[:\s=]*[\w!@#$%^&*()]+/gi`. -/
def rePassword : RE :=
  reSeq [ciLit "password", .starCls isSepChar, plusCls isPasswordValChar]

/-- Character class `[_\s]` of `/api[_\s]?key/`. -/
def isUnderscoreWs (c : Char) : Bool := c == '_' || isJsWs c

/-- Pattern `/api[_\s]?key[:\s=]*[\w-]+/gi`. -/
def reApiKey : RE :=
  reSeq [ciLit "api", .opt (.cls isUnderscoreWs), ciLit "key",
    .starCls isSepChar, plusCls isWordDashChar]

/-- Pattern `/token[:\s=]*[\w-]+/gi`. -/
def reToken : RE :=
  reSeq [ciLit "token", .starCls isSepChar, plusCls isWordDashChar]

/-- Pattern `/secret[:\s=]*[\w-]+/gi`. -/
def reSecret : RE :=
  reSeq [ciLit "secret", .starCls isSepChar, plusCls isWordDashChar]

/-- Pattern `/bearer\s+[\w-]+/gi`. -/
def reBearer : RE :=
  reSeq [ciLit "bearer", reWs, plusCls isWordDashChar]

/-- Character class `[a-zA-Z0-9._%+-]` (email local part). -/
def isEmailLocalChar (c : Char) : Bool :=
  c.isAlphanum || c == '.' || c == '_' || c == '%' || c == '+' || c == '-'

/-- Character class `[a-zA-Z0-9.-]` (email domain). -/
def isEmailDomainChar (c : Char) : Bool :=
  c.isAlphanum || c == '.' || c == '-'

/-- Character class `[a-zA-Z]`. -/
def isAsciiLetter (c : Char) : Bool := c.isAlpha

/-- Pattern `/[a-zA-Z0-9._%+-]+@[a-zA-Z0-9.-]+\.[a-zA-Z]{2,}/g`
(`{2,}` is one mandatory letter then a greedy `+`). -/
def reEmail : RE :=
  reSeq [plusCls isEmailLocalChar, .cls (· == '@'), plusCls isEmailDomainChar,
    .cls (· == '.'), .cls isAsciiLetter, plusCls isAsciiLetter]

/-- Model of `OpenAIService.FORBIDDEN_PATTERNS`: the ordered pattern/replacement
pairs applied by `sanitizeInput`. -/
def FORBIDDEN_PATTERNS : List (RE × JStr) :=
  [ (rePassword, str "[PASSWORD_REDACTED]")
  , (reApiKey,   str "[API_KEY_REDACTED]")
  , (reToken,    str "[TOKEN_REDACTED]")
  , (reSecret,   str "[SECRET_REDACTED]")
  , (reBearer,   str "[BEARER_TOKEN_REDACTED]")
  , (reEmail,    str "[EMAIL_REDACTED]")
  ]

/-- Sequential application of pattern/replacement pairs, the
`forEach` loop of `sanitizeInput`. -/
def applyPatterns (ps : List (RE × JStr)) (s : JStr) : JStr :=
  ps.foldl (fun acc pr => replaceAll pr.1 pr.2 acc) s

/-- Model of `OpenAIService.sanitizeInput`: `if (!text) return text;` then
each forbidden pattern is applied sequentially with its replacement. -/
def sanitizeInput (text : JStr) : JStr :=
  if text.isEmpty then text
  else applyPatterns FORBIDDEN_PATTERNS text

/-- Pattern `/ignore\s+(all\s+)?previous\s+instructions?/gi`. -/
def reInjIgnorePrevious : RE :=
  reSeq [ciLit "ignore", reWs, .opt (.seq (ciLit "all") reWs),
    ciLit "previous", reWs, ciLit "instruction", .opt (ciLit "s")]

/-- Pattern `/disregard\s+(all\s+)?(previous|above|prior)\s+(instructions?|prompts?)/gi`. -/
def reInjDisregard : RE :=
  reSeq [ciLit "disregard", reWs, .opt (.seq (ciLit "all") reWs),
    .alt (ciLit "previous") (.alt (ciLit "above") (ciLit "prior")), reWs,
    .alt (.seq (ciLit "instruction") (.opt (ciLit "s")))
         (.seq (ciLit "prompt") (.opt (ciLit "s")))]

/-- Pattern `/forget\s+(all\s+)?previous\s+(instructions?|context)/gi`. -/
def reInjForget : RE :=
  reSeq [ciLit "forget", reWs, .opt (.seq (ciLit "all") reWs),
    ciLit "previous", reWs,
    .alt (.seq (ciLit "instruction") (.opt (ciLit "s"))) (ciLit "context")]

/-- Pattern `/you\s+are\s+now/gi`. -/
def reInjYouAreNow : RE :=
  reSeq [ciLit "you", reWs, ciLit "are", reWs, ciLit "now"]

/-- Pattern `/new\s+instructions?:/gi`. -/
def reInjNewInstructions : RE :=
  reSeq [ciLit "new", reWs, ciLit "instruction", .opt (ciLit "s"),
    .cls (· == ':')]

/-- Pattern `/system\s+prompt/gi`. -/
def reInjSystemPrompt : RE :=
  reSeq [ciLit "system", reWs, ciLit "prompt"]

/-- Pattern `/override\s+instructions?/gi`. -/
def reInjOverride : RE :=
  reSeq [ciLit "override", reWs, ciLit "instruction", .opt (ciLit "s")]

/-- Pattern `/ignore\s+your\s+programming/gi`. -/
def reInjIgnoreProgramming : RE :=
  reSeq [ciLit "ignore", reWs, ciLit "your", reWs, ciLit "programming"]

/-- Model of `OpenAIService.PROMPT_INJECTION_PATTERNS`, in source order. -/
def PROMPT_INJECTION_PATTERNS : List RE :=
  [ reInjIgnorePrevious, reInjDisregard, reInjForget, reInjYouAreNow,
    reInjNewInstructions, reInjSystemPrompt, reInjOverride,
    reInjIgnoreProgramming ]

/-- The `for (const pattern of this.PROMPT_INJECTION_PATTERNS) if
(pattern.test(text))` loop: true when some injection pattern matches. -/
def injectionAny (text : JStr) : Bool :=
  PROMPT_INJECTION_PATTERNS.any (fun p => hasMatch p text)

/-! ## JS runtime values

Values produced by `JSON.parse`, as far as the service reads them.
Numbers are modelled as integers: the only operations the service applies
to a number are truthiness and stringification, and no statement below
involves a fractional candidate field. -/

inductive JSVal where
  | vUndefined : JSVal
  | vNull : JSVal
  | vBool (b : Bool) : JSVal
  | vNum (n : Int) : JSVal
  | vStr (s : JStr) : JSVal
  | vArr (elems : List JSVal) : JSVal
  | vObj (fields : List (JStr × JSVal)) : JSVal

/-- JS truthiness (`NaN` is not modelled; no statement involves it). -/
def truthy : JSVal → Bool
  | .vUndefined => false
  | .vNull => false
  | .vBool b => b
  | .vNum n => n != 0
  | .vStr s => !s.isEmpty
  | .vArr _ => true
  | .vObj _ => true

/-- Binary `a || b`: JS returns the left operand when truthy, else the right. -/
def jsOr (a b : JSVal) : JSVal := if truthy a then a else b

/-- Property read `v.k` on a value already known to be an object or array:
objects yield the field (JSON objects have unique keys), everything else
yields `undefined`.  Reads on `null`/`undefined` — which throw in JS — are
modelled separately by `jsGetProp`. -/
def getField (v : JSVal) (k : JStr) : JSVal :=
  match v with
  | .vObj fields => (((fields.find? (fun p => p.1 == k)).map Prod.snd).getD .vUndefined)
  | _ => .vUndefined

/-- Property read `v.k` as an expression that can throw: a `TypeError` on
`null`/`undefined`, the field or `undefined` otherwise. -/
def jsGetProp (v : JSVal) (k : JStr) : Except String JSVal :=
  match v with
  | .vNull => .error "TypeError: cannot read properties of null"
  | .vUndefined => .error "TypeError: cannot read properties of undefined"
  | _ => .ok (getField v k)

/-- Model of `Array.isArray`. -/
def isArrayVal : JSVal → Bool
  | .vArr _ => true
  | _ => false

/-- Test `typeof v !== 'object'`: it is false exactly for `null` (excluded earlier
by truthiness), arrays and objects. -/
def typeofIsObject : JSVal → Bool
  | .vNull => true
  | .vArr _ => true
  | .vObj _ => true
  | _ => false

/-- The `.length` read performed by the truncation step: strings and
arrays have one, other primitives and plain objects yield `undefined`
(an explicit `length` key on a plain object is not modelled; no statement
below involves one). -/
def jsLength : JSVal → Option Nat
  | .vStr s => some s.length
  | .vArr l => some l.length
  | _ => none

/-- Decimal digits of a natural number (the fuel argument makes the
recursion structural, so terms reduce definitionally). -/
def natToDec (fuel n : Nat) : JStr :=
  match fuel with
  | 0 => []
  | fuel + 1 =>
    if n < 10 then [Char.ofNat (48 + n)]
    else natToDec fuel (n / 10) ++ [Char.ofNat (48 + n % 10)]

/-- Decimal rendering of an integer, as JS renders an integral number. -/
def intToDec (n : Int) : JStr :=
  if n < 0 then '-' :: natToDec (n.natAbs + 1) n.natAbs
  else natToDec (n.toNat + 1) n.toNat

/-- Template-literal stringification, `String(v)`.  Arrays join their
elements with commas, `null`/`undefined` elements becoming empty. -/
def jsToStrVal : JSVal → JStr
  | .vUndefined => str "undefined"
  | .vNull => str "null"
  | .vBool b => if b then str "true" else str "false"
  | .vNum n => intToDec n
  | .vStr s => s
  | .vArr l => jsArrJoin l
  | .vObj _ => str "[object Object]"
where
  /-- model of `Array.prototype.toString`: comma-joined elements. -/
  jsArrJoin : List JSVal → JStr
  | [] => []
  | [x] => jsElemStr x
  | x :: y :: rest => jsElemStr x ++ ',' :: jsArrJoin (y :: rest)
  /-- array elements stringify like `String` except `null`/`undefined`
  become empty -/
  jsElemStr : JSVal → JStr
  | .vNull => []
  | .vUndefined => []
  | .vBool b => if b then str "true" else str "false"
  | .vNum n => intToDec n
  | .vStr s => s
  | .vArr l => jsArrJoin l
  | .vObj _ => str "[object Object]"

/-! ## The Issue data model -/

/-- The backend `Issue` interface: `title`/`body` required strings, the
rest optional. -/
structure Issue where
  title : JStr
  body : JStr
  labels : Option (List JStr) := none
  priority : Option JStr := none
  assignee : Option JStr := none
  status : Option JStr := none

/-- An optional string field as the JS value read from the object. -/
def optJS : Option JStr → JSVal
  | none => .vUndefined
  | some s => .vStr s

/-- An optional label list as the JS value read from the object. -/
def labelsJS : Option (List JStr) → JSVal
  | none => .vUndefined
  | some l => .vArr (l.map .vStr)

/-- An `Issue` seen as the JS object it is at runtime. -/
def Issue.toJS (i : Issue) : JSVal :=
  .vObj [ (str "title", .vStr i.title)
        , (str "body", .vStr i.body)
        , (str "labels", labelsJS i.labels)
        , (str "priority", optJS i.priority)
        , (str "assignee", optJS i.assignee)
        , (str "status", optJS i.status) ]

/-- The runtime shape of the object `validateOutput` returns: `title` and
`body` are strings on every non-throwing path, while `labels` is an array
on the merge path but the original's (possibly undefined) value on the
fallback paths, and the remaining fields carry any candidate value (the
code never inspects them after the merge). -/
structure RtIssue where
  title : JStr
  body : JStr
  labels : JSVal
  priority : JSVal
  assignee : JSVal
  status : JSVal

/-- An `Issue` as a runtime result (what `return original` produces). -/
def Issue.toRt (i : Issue) : RtIssue :=
  { title := i.title
  , body := i.body
  , labels := labelsJS i.labels
  , priority := optJS i.priority
  , assignee := optJS i.assignee
  , status := optJS i.status }

/-! ## The similarity heuristic -/

/-- JS `s.split(/\s+/)`: pieces between maximal whitespace runs, with an
empty leading piece when the string starts with whitespace and an empty
trailing piece when it ends with one; `"".split` gives `[""]`. -/
def jsSplitWs (s : JStr) : List JStr := go s.length s []
where
  /-- fuel-based scan (the fuel `s.length` never runs out: every
  recursive call strictly shortens the string) -/
  go : Nat → JStr → JStr → List JStr
  | _, [], acc => [acc.reverse]
  | 0, _, acc => [acc.reverse]
  | fuel + 1, c :: rest, acc =>
    if isJsWs c then acc.reverse :: go fuel (rest.dropWhile isJsWs) []
    else go fuel rest (c :: acc)

/-- Model of `new Set(title.toLowerCase().split(/\s+/))`, as its underlying
duplicate-free list. -/
def titleWords (t : JStr) : List JStr := (jsSplitWs (jsToLower t)).dedup

/-- Size of the intersection of two word sets (both duplicate-free). -/
def interCount (a b : List JStr) : Nat :=
  (a.filter (fun x => b.contains x)).length

/-- Condition `intersection.size / Math.max(a.size, b.size) < 0.2 && a.size > 3`.
The float comparison `i / m < 0.2` is modelled exactly by `5 * i < m`:
for the word-set sizes involved, `i / m` rounds to at least the double
nearest `0.2` exactly when `i / m ≥ 1 / 5`. -/
def similarityLow (origTitle mergedTitle : JStr) : Bool :=
  let ow := titleWords origTitle
  let iw := titleWords mergedTitle
  decide (5 * interCount ow iw < max ow.length iw.length)
    && decide (3 < ow.length)

/-! ## Output validation -/

/-- The truncation applied at step 3 of `validateOutput`:
`if (v.length > maxLen) v = v.substring(0, maxLen - 3) + '...'`, as the
JS expression behaves on an arbitrary runtime value: no `.length`
(undefined) skips, a string is truncated, and an over-long array reaches
`.substring` and throws. -/
def truncVal (maxLen : Nat) (v : JSVal) : Except String JSVal :=
  match jsLength v with
  | some n =>
    if maxLen < n then
      match v with
      | .vStr s => .ok (.vStr (s.take (maxLen - 3) ++ str "..."))
      | _ => .error "TypeError: substring is not a function"
    else .ok v
  | none => .ok v

/-- Model of `sanitizeInput` applied to an arbitrary runtime value, as at step 6:
falsy values are returned unchanged by the `if (!text)` guard, strings
are sanitized, and a truthy non-string reaches `.replace` and throws. -/
def sanitizeJS (v : JSVal) : Except String JSVal :=
  if !truthy v then .ok v
  else
    match v with
    | .vStr s => .ok (.vStr (sanitizeInput s))
    | _ => .error "TypeError: text.replace is not a function"

/-- Model of `OpenAIService.validateOutput(original, improved)`.  Mirrors the six
steps of the source: structure check, field merge, truncation, output
injection check, title-similarity guard, final redaction.  A thrown JS
`TypeError` is modelled as `.error`; both fallback paths return the
original issue unchanged. -/
def validateOutput (original : Issue) (improved : JSVal) : Except String RtIssue :=
  -- Step 1: `if (!improved || typeof improved !== 'object') return original`
  if !truthy improved || !typeofIsObject improved then .ok original.toRt
  else
    -- Step 2: field merge, original as base
    let mTitle := jsOr (getField improved (str "title")) (.vStr original.title)
    let mBody := jsOr (getField improved (str "body")) (.vStr original.body)
    let mLabels :=
      if isArrayVal (getField improved (str "labels"))
      then getField improved (str "labels")
      else jsOr (labelsJS original.labels) (.vArr [])
    let mPriority := jsOr (getField improved (str "priority")) (optJS original.priority)
    let mAssignee := jsOr (getField improved (str "assignee")) (optJS original.assignee)
    let mStatus := jsOr (getField improved (str "status")) (optJS original.status)
    -- Step 3: truncation to the output caps (title first, as in the source)
    match truncVal 100 mTitle, truncVal 2000 mBody with
    | .error e, _ => .error e
    | .ok _, .error e => .error e
    | .ok tTitle, .ok tBody =>
      -- Step 4: injection re-check on the merged output
      if injectionAny (jsToLower (jsToStrVal tTitle ++ ' ' :: jsToStrVal tBody)) then
        .ok original.toRt
      else
        -- Step 5: similarity guard (`result.title.toLowerCase()` throws on
        -- a non-string title)
        match tTitle with
        | .vStr t =>
          -- Step 6: final redaction pass
          match sanitizeJS tBody with
          | .error e => .error e
          | .ok (.vStr b) =>
            .ok { title :=
                    sanitizeInput
                      (if similarityLow original.title t then original.title else t)
                , body := b, labels := mLabels
                , priority := mPriority, assignee := mAssignee, status := mStatus }
          | .ok _ =>
            -- unreachable: a merged body is either truthy (then `sanitizeJS`
            -- returned a string or threw) or the original's string
            .error "unreachable: non-string body after sanitization"
        | _ => .error "TypeError: result.title.toLowerCase is not a function"

/-! ## Input validation, moderation, orchestration -/

/-- Model of `OpenAIService.validateInput`: emptiness, input length caps (500 /
10000), then the injection check on the lower-cased `title body`
concatenation.  `.error` carries the thrown `Error`'s message. -/
def validateInput (issue : Issue) : Except String Unit :=
  if issue.title.isEmpty || (jsTrim issue.title).length == 0 then
    .error "Issue title cannot be empty"
  else if issue.body.isEmpty || (jsTrim issue.body).length == 0 then
    .error "Issue body cannot be empty"
  else if 500 < issue.title.length then
    .error "Issue title too long (max 500 characters)"
  else if 10000 < issue.body.length then
    .error "Issue body too long (max 10000 characters)"
  else if injectionAny (jsToLower (issue.title ++ ' ' :: issue.body)) then
    .error "Input contains potentially malicious content"
  else .ok ()

/-- Outcome of the external moderation call (an oracle: the network and
the classifier are outside the program).  `response flags` is the
`results` array, one flagged bit per entry. -/
inductive ModOutcome where
  | response (flags : List Bool) : ModOutcome
  | failure (msg : String) : ModOutcome

/-- Model of `OpenAIService.moderateContent`: false only when the call succeeded
and `results[0].flagged` held; an empty `results` array makes
`results[0].flagged` throw inside the `try`, and any failure is caught
and allowed through (fail-open). -/
def moderateContent : ModOutcome → Bool
  | .response flags =>
    match flags.head? with
    | none => true
    | some flagged => !flagged
  | .failure _ => true

/-- Outcome of the external chat-completion call (an oracle).  `content
(some v)` is a response body that `JSON.parse` turned into `v`; `content
none` is a body `JSON.parse` rejects; `noContent` is a response with no
`choices[0].message.content`; `failure` is a thrown API error with its
message. -/
inductive LLMOutcome where
  | failure (msg : String) : LLMOutcome
  | noContent : LLMOutcome
  | content (parsed : Option JSVal) : LLMOutcome

/-- The keyword filter of `improveIssue`'s catch block:
`error.message.includes('validation') || ... ('too long') || ('empty')
|| ('malicious') || ('flagged')`. -/
def msgRetained (msg : String) : Bool :=
  containsSub (str "validation") (str msg) || containsSub (str "too long") (str msg)
    || containsSub (str "empty") (str msg) || containsSub (str "malicious") (str msg)
    || containsSub (str "flagged") (str msg)

/-- The generic failure message of `improveIssue`. -/
def genericImproveMsg : String := "Failed to improve issue with OpenAI. Please try again."

/-- The body of `improveIssue`'s `try` block: input validation, content
moderation on the raw issue, input sanitization, the external call, JSON
parsing, output validation.  (The prompt builder is a pure string
template whose output only feeds the external call, so it does not
appear.) -/
def improveIssueRaw (issue : Issue) (moder : ModOutcome) (llm : LLMOutcome) :
    Except String RtIssue :=
  match validateInput issue with
  | .error e => .error e
  | .ok _ =>
    if !moderateContent moder then .error "Content flagged by moderation system"
    else
      let sanitizedIssue : Issue :=
        { issue with title := sanitizeInput issue.title, body := sanitizeInput issue.body }
      match llm with
      | .failure msg => .error msg
      | .noContent => .error "No response from OpenAI"
      | .content none => .error "Invalid JSON response from AI"
      | .content (some improved) => validateOutput sanitizedIssue improved

/-- Model of `OpenAIService.improveIssue`: the `try` body with its catch block,
which re-throws an error whose message contains one of the five keywords
and otherwise throws the generic message. -/
def improveIssue (issue : Issue) (moder : ModOutcome) (llm : LLMOutcome) :
    Except String RtIssue :=
  match improveIssueRaw issue moder llm with
  | .ok r => .ok r
  | .error msg => .error (if msgRetained msg then msg else genericImproveMsg)

/-- Shape of `PullRequest` as the release-notes input carries it. -/
structure PullRequest where
  number : Int := 0
  prTitle : JStr := []
  prBody : JStr := []
  author : JStr := []

/-- Shape of `ReleaseNotesInput`, restricted to the fields the service branches
on (the rest only feed the opaque prompt template). -/
structure ReleaseNotesInput where
  pullRequests : List PullRequest

/-- Shape of `CategorizedReleaseNotes` after the service's coercion: five
arrays of arbitrary runtime items. -/
structure CategorizedReleaseNotes where
  features : List JSVal
  bugFixes : List JSVal
  security : List JSVal
  performance : List JSVal
  maintenance : List JSVal

/-- Coercion `Array.isArray(v) ? v : []` on a category value. -/
def coerceCategory (v : JSVal) : List JSVal :=
  match v with
  | .vArr l => l
  | _ => []

/-- The generic failure message of `generateReleaseNotes` (reachable
only for non-`Error` throws, which the model cannot produce: the catch
block re-throws every `Error` unchanged). -/
def genericReleaseNotesMsg : String :=
  "Failed to generate release notes with OpenAI. Please try again."

/-- Model of `OpenAIService.generateReleaseNotes`: batch-size validation, the
external call, JSON parsing, category coercion.  Its catch block
re-throws every `Error` as-is, so errors pass through unchanged. -/
def generateReleaseNotes (input : ReleaseNotesInput) (llm : LLMOutcome) :
    Except String CategorizedReleaseNotes :=
  if input.pullRequests.isEmpty then .error "At least one pull request is required"
  else if 50 < input.pullRequests.length then
    .error "Too many pull requests (max 50). Please use a shorter date range."
  else
    match llm with
    | .failure msg => .error msg
    | .noContent => .error "No response from OpenAI"
    | .content none => .error "Invalid JSON response from AI"
    | .content (some rn) => do
      let f ← jsGetProp rn (str "features")
      let b ← jsGetProp rn (str "bugFixes")
      let s ← jsGetProp rn (str "security")
      let p ← jsGetProp rn (str "performance")
      let m ← jsGetProp rn (str "maintenance")
      .ok { features := coerceCategory f, bugFixes := coerceCategory b
          , security := coerceCategory s, performance := coerceCategory p
          , maintenance := coerceCategory m }

/-! ## Rate limiter

`RateLimiter.checkLimit` for a single identifier: the per-identifier
window is the list of recorded timestamps (milliseconds).  The retry
hint is modelled as the reset timestamp itself rather than its
locale-formatted rendering. -/

/-- Value of `Math.min(...xs)` on a nonempty spread. -/
def listMin : List Int → Int
  | [] => 0
  | x :: xs => xs.foldl min x

/-- A rate-limit rejection with its `oldest + window` reset time. -/
inductive RateLimitError where
  | hourExceeded (resetAt : Int) : RateLimitError
  | minuteExceeded (resetAt : Int) : RateLimitError

/-- Model of `RateLimiter.checkLimit(identifier)` acting on the identifier's
window: prune to the trailing hour, reject at 100/hour, then reject at
10 in the trailing minute, otherwise record `now`. -/
def checkLimit (now : Int) (times : List Int) : Except RateLimitError (List Int) :=
  let recentRequests := times.filter (fun t => now - t < 3600000)
  if 100 ≤ recentRequests.length then
    .error (.hourExceeded (listMin recentRequests + 3600000))
  else
    let lastMinuteRequests := recentRequests.filter (fun t => now - t < 60000)
    if 10 ≤ lastMinuteRequests.length then
      .error (.minuteExceeded (listMin lastMinuteRequests + 60000))
    else .ok (recentRequests ++ [now])

/-- A sequence of `checkLimit` calls at the given times, each recording
into the window the previous call produced. -/
def runCheckLimits (calls : List Int) (state : List Int) :
    Except RateLimitError (List Int) :=
  calls.foldlM (fun st t => checkLimit t st) state

/-- Candidate object carrying just a string title and body, the shape a
well-behaved model response takes. -/
def candTB (ct cb : JStr) : JSVal :=
  .vObj [(str "title", .vStr ct), (str "body", .vStr cb)]

/-- The seven injection phrases named by the specification, each paired
with the source pattern that matches it. -/
def INJECTION_PHRASES : List (JStr × RE) :=
  [ (str "ignore previous instructions", reInjIgnorePrevious)
  , (str "disregard prior prompts", reInjDisregard)
  , (str "you are now", reInjYouAreNow)
  , (str "new instructions:", reInjNewInstructions)
  , (str "system prompt", reInjSystemPrompt)
  , (str "override instructions", reInjOverride)
  , (str "forget previous context", reInjForget) ]

/-! ## Rate limiter lemmas -/

/-- Any prefix of calls that all fit inside one minute and leave the
window at ten or fewer entries is admitted, each call appending its
timestamp. -/
theorem runCheckLimits_ok_of_pairwise :
    ∀ (ts state : List Int), state.length + ts.length ≤ 10 →
      (state ++ ts).Pairwise (fun a b => a ≤ b ∧ b - a < 60000) →
      runCheckLimits ts state = .ok (state ++ ts) := by
  intro ts
  induction ts with
  | nil => intro state _ _; simp [runCheckLimits]; rfl
  | cons t ts ih =>
    intro state hlen hpw
    have hmem : ∀ a ∈ state, a ≤ t ∧ t - a < 60000 := by
      intro a ha
      exact (List.pairwise_append.mp hpw).2.2 a ha t (by simp)
    have hfilH : state.filter (fun a => decide (t - a < 3600000)) = state := by
      rw [List.filter_eq_self]
      intro a ha
      have := (hmem a ha).2
      simp only [decide_eq_true_eq]
      omega
    have hfilM : state.filter (fun a => decide (t - a < 60000)) = state := by
      rw [List.filter_eq_self]
      intro a ha
      simpa using (hmem a ha).2
    have hst : state.length ≤ 9 := by
      simp only [List.length_cons] at hlen; omega
    have hchk : checkLimit t state = .ok (state ++ [t]) := by
      simp only [checkLimit, hfilH, hfilM]
      rw [if_neg (by omega), if_neg (by omega)]
    have hrec : runCheckLimits ts (state ++ [t]) = .ok ((state ++ [t]) ++ ts) := by
      apply ih
      · simp only [List.length_append, List.length_cons, List.length_nil] at hlen ⊢
        omega
      · rw [List.append_assoc]
        exact hpw
    calc runCheckLimits (t :: ts) state
        = checkLimit t state >>= runCheckLimits ts := by
          simp [runCheckLimits, List.foldlM_cons]; rfl
      _ = runCheckLimits ts (state ++ [t]) := by rw [hchk]; rfl
      _ = .ok (state ++ t :: ts) := by
          rw [hrec, List.append_assoc]; rfl

/-! ## Claim C2 — rate limiter sliding window -/

/-- C2.  With the per-minute cap of 10 and an empty starting window:
any 10 calls lying inside one 60-second span are all admitted (the
window then holds exactly their timestamps); an 11th call inside the
same span is rejected with the per-minute rate-limit error carrying the
oldest-entry-plus-60s reset hint; and a later call — in particular one
more than 60 seconds after the first — is admitted again as soon as its
trailing-minute count is below 10 and its trailing-hour count below
100. -/
theorem C2_rate_limit_scenario :
    (∀ ts : List Int, ts.length = 10 →
      ts.Pairwise (fun a b => a ≤ b ∧ b - a < 60000) →
      runCheckLimits ts [] = .ok ts) ∧
    (∀ (ts : List Int) (t11 : Int), ts.length = 10 →
      (∀ a ∈ ts, t11 - a < 60000) →
      checkLimit t11 ts = .error (.minuteExceeded (listMin ts + 60000))) ∧
    (∀ (ts : List Int) (tn t1 : Int), t1 ∈ ts → 60000 < tn - t1 →
      (ts.filter (fun a => decide (tn - a < 3600000))).length < 100 →
      (ts.filter (fun a => decide (tn - a < 60000))).length < 10 →
      checkLimit tn ts = .ok (ts.filter (fun a => decide (tn - a < 3600000)) ++ [tn])) := by
  refine ⟨?_, ?_, ?_⟩
  · intro ts hlen hpw
    simpa using runCheckLimits_ok_of_pairwise ts [] (by simp [hlen]) (by simpa using hpw)
  · intro ts t11 hlen hspan
    have hfilH : ts.filter (fun a => decide (t11 - a < 3600000)) = ts := by
      rw [List.filter_eq_self]
      intro a ha
      have := hspan a ha
      simp only [decide_eq_true_eq]
      omega
    have hfilM : ts.filter (fun a => decide (t11 - a < 60000)) = ts := by
      rw [List.filter_eq_self]
      intro a ha
      simpa using hspan a ha
    simp only [checkLimit, hfilH, hfilM]
    rw [if_neg (by omega), if_pos (by omega)]
  · intro ts tn t1 _ _ hH hM
    have hsub : (ts.filter (fun a => decide (tn - a < 3600000))).filter
        (fun a => decide (tn - a < 60000)) =
        ts.filter (fun a => decide (tn - a < 60000)) := by
      rw [List.filter_filter]
      apply List.filter_congr
      intro a _
      by_cases h60 : tn - a < 60000
      · have h36 : tn - a < 3600000 := by omega
        simp [h60, h36]
      · simp [h60]
    simp only [checkLimit]
    rw [if_neg (by omega), hsub, if_neg (by omega)]

/-- Witness for C2: ten calls at seconds 0..9 are admitted, an 11th at
59999 ms is rejected with reset hint 60000, and a call at 61000 ms (with
8 entries in its trailing minute) is admitted. -/
theorem C2_rate_limit_scenario_witness :
    runCheckLimits [0, 1000, 2000, 3000, 4000, 5000, 6000, 7000, 8000, 9000] [] =
      .ok [0, 1000, 2000, 3000, 4000, 5000, 6000, 7000, 8000, 9000] ∧
    checkLimit 59999 [0, 1000, 2000, 3000, 4000, 5000, 6000, 7000, 8000, 9000] =
      .error (.minuteExceeded
        (listMin [0, 1000, 2000, 3000, 4000, 5000, 6000, 7000, 8000, 9000] + 60000)) ∧
    checkLimit 61000 [0, 1000, 2000, 3000, 4000, 5000, 6000, 7000, 8000, 9000] =
      .ok (([0, 1000, 2000, 3000, 4000, 5000, 6000, 7000, 8000, 9000] :
          List Int).filter (fun a => decide ((61000 : Int) - a < 3600000)) ++ [61000]) := by
  refine ⟨?_, ?_, ?_⟩
  · exact C2_rate_limit_scenario.1 _ (by decide) (by decide)
  · exact C2_rate_limit_scenario.2.1 _ _ (by decide) (by decide)
  · exact C2_rate_limit_scenario.2.2 _ _ 0 (by decide) (by decide) (by decide) (by decide)

/-! ## Claim C9 — moderation fail-open -/

/-- C9.  The moderation adapter returns false exactly when the external
call succeeded with a first result that is flagged; an empty result
array and every transport or service failure yield true (fail-open), so
a moderation outage never produces a caller-visible rejection. -/
theorem C9_moderation_fail_open :
    (∀ out : ModOutcome, moderateContent out = false ↔
      ∃ rest : List Bool, out = .response (true :: rest)) ∧
    (∀ msg : String, moderateContent (.failure msg) = true) := by
  constructor
  · intro out
    cases out with
    | response flags =>
      cases flags with
      | nil => simp [moderateContent]
      | cons f rest =>
        cases f with
        | true => simp [moderateContent]
        | false => simp [moderateContent]
    | failure msg => simp [moderateContent]
  · intro msg; rfl

/-- Witness for C9: a flagged first result is rejected, while an
errored call and an empty result array are allowed through. -/
theorem C9_moderation_fail_open_witness :
    moderateContent (.response [true]) = false ∧
    moderateContent (.failure "network unreachable") = true := by
  constructor
  · exact (C9_moderation_fail_open.1 (.response [true])).mpr ⟨[], rfl⟩
  · exact C9_moderation_fail_open.2 "network unreachable"

/-! ## Claim C8 — truncation boundaries -/

/-- C8.  In the length-enforcement step of `validateOutput` (`truncVal`):
a merged title of exactly 101 characters becomes a string of exactly 100
characters whose last three characters are the ellipsis marker, a title
of exactly 100 characters is untouched, and a merged body longer than
2000 characters becomes exactly 2000 characters by the same convention. -/
theorem C8_truncation_boundary :
    (∀ t : JStr, t.length = 101 →
      truncVal 100 (.vStr t) = .ok (.vStr (t.take 97 ++ str "...")) ∧
      (t.take 97 ++ str "...").length = 100 ∧
      (t.take 97 ++ str "...").drop 97 = str "...") ∧
    (∀ t : JStr, t.length = 100 → truncVal 100 (.vStr t) = .ok (.vStr t)) ∧
    (∀ b : JStr, 2000 < b.length →
      truncVal 2000 (.vStr b) = .ok (.vStr (b.take 1997 ++ str "...")) ∧
      (b.take 1997 ++ str "...").length = 2000 ∧
      (b.take 1997 ++ str "...").drop 1997 = str "...") := by
  refine ⟨?_, ?_, ?_⟩
  · intro t ht
    have htake : (t.take 97).length = 97 := by simp [List.length_take, ht]
    refine ⟨?_, ?_, ?_⟩
    · simp [truncVal, jsLength, ht]
    · simp [List.length_append, htake, str]
    · exact List.drop_left' htake
  · intro t ht
    simp [truncVal, jsLength, ht]
  · intro b hb
    have htake : (b.take 1997).length = 1997 := by
      simp only [List.length_take]
      omega
    refine ⟨?_, ?_, ?_⟩
    · simp [truncVal, jsLength, hb]
    · simp [List.length_append, htake, str]
    · exact List.drop_left' htake

/-- Witness for C8: a 101-`a` title is truncated to 97 `a`s plus the
marker, a 100-`a` title is untouched, and a 2001-`b` body is truncated
to 1997 `b`s plus the marker. -/
theorem C8_truncation_boundary_witness :
    truncVal 100 (.vStr (List.replicate 101 'a')) =
      .ok (.vStr ((List.replicate 101 'a').take 97 ++ str "...")) ∧
    truncVal 100 (.vStr (List.replicate 100 'a')) =
      .ok (.vStr (List.replicate 100 'a')) ∧
    truncVal 2000 (.vStr (List.replicate 2001 'b')) =
      .ok (.vStr ((List.replicate 2001 'b').take 1997 ++ str "...")) := by
  refine ⟨?_, ?_, ?_⟩
  · exact (C8_truncation_boundary.1 _ (by simp [List.length_replicate])).1
  · exact C8_truncation_boundary.2.1 _ (by simp [List.length_replicate])
  · exact (C8_truncation_boundary.2.2 _ (by simp [List.length_replicate])).1

/-! ## Claim C1 — reconcile can throw -/

/-- C1.  Contrary to the never-raises contract, `validateOutput` throws
a `TypeError` for a candidate object whose `title` is a truthy
non-string: the merge keeps the numeric title, the length check skips it
(`(42).length` is undefined), and the similarity step's
`result.title.toLowerCase()` then throws. -/
theorem C1_validateOutput_throws_on_numeric_title :
    validateOutput { title := str "t", body := str "b" }
      (.vObj [(str "title", .vNum 42)]) =
    .error "TypeError: result.title.toLowerCase is not a function" := by
  rfl

/-! ## Evaluation lemmas for validateOutput -/

@[simp]
theorem jsOr_self (a : JSVal) : jsOr a a = a := by
  simp [jsOr]

@[simp]
theorem sanitizeJS_vStr (s : JStr) :
    sanitizeJS (.vStr s) = .ok (.vStr (sanitizeInput s)) := by
  by_cases h : s = [] <;> simp [sanitizeJS, truthy, sanitizeInput, h]

theorem truncVal_vStr_short {s : JStr} {maxLen : Nat} (h : s.length ≤ maxLen) :
    truncVal maxLen (.vStr s) = .ok (.vStr s) := by
  simp only [truncVal, jsLength]
  rw [if_neg (by omega)]

@[simp]
theorem getField_toJS_title (i : Issue) :
    getField i.toJS (str "title") = .vStr i.title := rfl

@[simp]
theorem getField_toJS_body (i : Issue) :
    getField i.toJS (str "body") = .vStr i.body := rfl

@[simp]
theorem getField_toJS_labels (i : Issue) :
    getField i.toJS (str "labels") = labelsJS i.labels := rfl

@[simp]
theorem getField_toJS_priority (i : Issue) :
    getField i.toJS (str "priority") = optJS i.priority := rfl

@[simp]
theorem getField_toJS_assignee (i : Issue) :
    getField i.toJS (str "assignee") = optJS i.assignee := rfl

@[simp]
theorem getField_toJS_status (i : Issue) :
    getField i.toJS (str "status") = optJS i.status := rfl

@[simp]
theorem getField_candTB_title (ct cb : JStr) :
    getField (candTB ct cb) (str "title") = .vStr ct := rfl

@[simp]
theorem getField_candTB_body (ct cb : JStr) :
    getField (candTB ct cb) (str "body") = .vStr cb := rfl

@[simp]
theorem getField_candTB_labels (ct cb : JStr) :
    getField (candTB ct cb) (str "labels") = .vUndefined := rfl

@[simp]
theorem getField_candTB_priority (ct cb : JStr) :
    getField (candTB ct cb) (str "priority") = .vUndefined := rfl

@[simp]
theorem getField_candTB_assignee (ct cb : JStr) :
    getField (candTB ct cb) (str "assignee") = .vUndefined := rfl

@[simp]
theorem getField_candTB_status (ct cb : JStr) :
    getField (candTB ct cb) (str "status") = .vUndefined := rfl

@[simp]
theorem jsOr_vUndefined (b : JSVal) : jsOr .vUndefined b = b := rfl

theorem jsOr_vStr_of_ne_nil {s : JStr} (h : s ≠ []) (b : JSVal) :
    jsOr (.vStr s) b = .vStr s := by
  simp [jsOr, truthy, h]

/-- Reconciling a candidate that carries only a nonempty, within-caps
string title and body: the merge keeps the candidate's title and body
and the original's remaining fields; when the injection re-check passes,
the similarity guard decides between the two titles, and the final
redaction pass runs over both fields. -/
theorem validateOutput_candTB {original : Issue} {ct cb : JStr}
    (hct : ct ≠ []) (hcb : cb ≠ [])
    (hlt : ct.length ≤ 100) (hlb : cb.length ≤ 2000) :
    validateOutput original (candTB ct cb) =
      if injectionAny (jsToLower (ct ++ ' ' :: cb)) then .ok original.toRt
      else .ok
        { title := sanitizeInput (if similarityLow original.title ct then original.title else ct)
        , body := sanitizeInput cb
        , labels := jsOr (labelsJS original.labels) (.vArr [])
        , priority := optJS original.priority
        , assignee := optJS original.assignee
        , status := optJS original.status } := by
  rw [validateOutput]
  rw [if_neg (by simp [candTB, truthy, typeofIsObject])]
  simp only [getField_candTB_title, getField_candTB_body, getField_candTB_labels,
    getField_candTB_priority, getField_candTB_assignee, getField_candTB_status,
    jsOr_vStr_of_ne_nil hct, jsOr_vStr_of_ne_nil hcb, jsOr_vUndefined,
    isArrayVal]
  rw [truncVal_vStr_short hlt, truncVal_vStr_short hlb]
  simp only [sanitizeJS_vStr, jsToStrVal]
  rfl

/-! ## Claim C6 — reconciliation idempotence -/

/-- C6 fails as stated: an Issue whose title holds a redactable pattern
is itself a reconciliation result (`validateOutput` of a null candidate
returns the original verbatim), yet reconciling it against itself
redacts the title, so the result differs. -/
theorem C6_idempotence_counterexample :
    (validateOutput
        { title := str "password: x", body := str "hello", labels := some [] }
        .vNull =
      .ok ({ title := str "password: x", body := str "hello",
             labels := some [] } : Issue).toRt) ∧
    (validateOutput
        { title := str "password: x", body := str "hello", labels := some [] }
        ({ title := str "password: x", body := str "hello",
           labels := some [] } : Issue).toJS =
      .ok { title := str "[PASSWORD_REDACTED]", body := str "hello"
          , labels := .vArr [], priority := .vUndefined, assignee := .vUndefined
          , status := .vUndefined }) ∧
    str "[PASSWORD_REDACTED]" ≠ str "password: x" := by
  refine ⟨rfl, rfl, by decide⟩

/-- C6 (amended).  Reconciling an Issue against itself is the identity
provided its labels are present, its title and body are within the
output caps, and both are fixed points of the redactor — the conditions
the counterexample shows to be necessary (a redactable or over-long
field changes on the second pass, and absent labels are coerced to an
empty array). -/
theorem C6_idempotence_amended (r : Issue) (l : List JStr)
    (hlab : r.labels = some l)
    (hlt : r.title.length ≤ 100) (hlb : r.body.length ≤ 2000)
    (hst : sanitizeInput r.title = r.title)
    (hsb : sanitizeInput r.body = r.body) :
    validateOutput r r.toJS = .ok r.toRt := by
  rw [validateOutput]
  rw [if_neg (by simp [Issue.toJS, truthy, typeofIsObject])]
  simp only [getField_toJS_title, getField_toJS_body, getField_toJS_labels,
    getField_toJS_priority, getField_toJS_assignee, getField_toJS_status,
    jsOr_self, hlab, labelsJS, isArrayVal]
  rw [truncVal_vStr_short hlt, truncVal_vStr_short hlb]
  simp only [jsToStrVal, sanitizeJS_vStr, ite_self, hst, hsb]
  split
  · rfl
  · rw [Issue.toRt, hlab]
    rfl

/-- Witness for the amended C6: a concrete redaction-free Issue with
labels present reconciles to itself. -/
theorem C6_idempotence_amended_witness :
    validateOutput
        { title := str "Fix the save button", body := str "It stopped working",
          labels := some [str "bug"] }
        ({ title := str "Fix the save button", body := str "It stopped working",
           labels := some [str "bug"] } : Issue).toJS =
      .ok ({ title := str "Fix the save button", body := str "It stopped working",
             labels := some [str "bug"] } : Issue).toRt :=
  C6_idempotence_amended _ [str "bug"] rfl (by decide) (by decide) (by rfl) (by rfl)

/-! ## Claim C7 — similarity guard -/

/-- C7.  After merge and truncation the title-similarity guard replaces
the merged title by the original exactly when the guard condition holds
(`similarityLow`: word-set overlap below one fifth — the exact value of
the float test `< 0.2` on these set sizes — and more than three original
words), and only the title is affected: body, labels and the remaining
fields keep the merge.  Concretely, the five-word original
`Bug: saving doesn't work lol` against the disjoint candidate
`Completely Unrelated Topic Here` keeps the original title, while the
two-word original `Fix bug` never triggers the guard, so the candidate
title is kept. -/
theorem C7_similarity_guard :
    (∀ (original : Issue) (ct cb : JStr),
      ct ≠ [] → cb ≠ [] → ct.length ≤ 100 → cb.length ≤ 2000 →
      injectionAny (jsToLower (ct ++ ' ' :: cb)) = false →
      validateOutput original (candTB ct cb) = .ok
        { title := sanitizeInput
            (if similarityLow original.title ct then original.title else ct)
        , body := sanitizeInput cb
        , labels := jsOr (labelsJS original.labels) (.vArr [])
        , priority := optJS original.priority
        , assignee := optJS original.assignee
        , status := optJS original.status }) ∧
    (validateOutput
        { title := str "Bug: saving doesn" ++ ['\''] ++ str "t work lol"
        , body := str "sometimes saving breaks when editing big report" }
        (candTB (str "Completely Unrelated Topic Here")
          (str "A better structured body")) =
      .ok { title := str "Bug: saving doesn" ++ ['\''] ++ str "t work lol"
          , body := str "A better structured body"
          , labels := .vArr [], priority := .vUndefined, assignee := .vUndefined
          , status := .vUndefined }) ∧
    (∀ (ct cb : JStr),
      ct ≠ [] → cb ≠ [] → ct.length ≤ 100 → cb.length ≤ 2000 →
      injectionAny (jsToLower (ct ++ ' ' :: cb)) = false →
      similarityLow (str "Fix bug") ct = false ∧
      validateOutput { title := str "Fix bug", body := str "body text" }
          (candTB ct cb) =
        .ok { title := sanitizeInput ct, body := sanitizeInput cb
            , labels := .vArr [], priority := .vUndefined, assignee := .vUndefined
            , status := .vUndefined }) := by
  have hgen : ∀ (original : Issue) (ct cb : JStr),
      ct ≠ [] → cb ≠ [] → ct.length ≤ 100 → cb.length ≤ 2000 →
      injectionAny (jsToLower (ct ++ ' ' :: cb)) = false →
      validateOutput original (candTB ct cb) = .ok
        { title := sanitizeInput
            (if similarityLow original.title ct then original.title else ct)
        , body := sanitizeInput cb
        , labels := jsOr (labelsJS original.labels) (.vArr [])
        , priority := optJS original.priority
        , assignee := optJS original.assignee
        , status := optJS original.status } := by
    intro original ct cb h1 h2 h3 h4 hninj
    rw [validateOutput_candTB h1 h2 h3 h4, if_neg (by simp [hninj])]
  refine ⟨hgen, by rfl, ?_⟩
  intro ct cb h1 h2 h3 h4 hninj
  have hml : similarityLow (str "Fix bug") ct = false := by
    unfold similarityLow
    have h2' : (titleWords (str "Fix bug")).length = 2 := rfl
    simp [h2']
  refine ⟨hml, ?_⟩
  rw [hgen _ _ _ h1 h2 h3 h4 hninj]
  simp [hml]
  exact ⟨rfl, rfl⟩

/-- Witness for C7: the general reconciliation shape at a close title
pair, and the `Fix bug` case at a disjoint candidate. -/
theorem C7_similarity_guard_witness :
    (validateOutput
        { title := str "Login page crashes on submit", body := str "details" }
        (candTB (str "Login page crash on submit") (str "more details")) =
      .ok { title := sanitizeInput
              (if similarityLow (str "Login page crashes on submit")
                  (str "Login page crash on submit")
                then str "Login page crashes on submit"
                else str "Login page crash on submit")
          , body := sanitizeInput (str "more details")
          , labels := jsOr (labelsJS none) (.vArr [])
          , priority := optJS none, assignee := optJS none
          , status := optJS none }) ∧
    (similarityLow (str "Fix bug") (str "Completely Unrelated Topic Here") = false ∧
      validateOutput { title := str "Fix bug", body := str "body text" }
          (candTB (str "Completely Unrelated Topic Here") (str "A second body")) =
        .ok { title := sanitizeInput (str "Completely Unrelated Topic Here")
            , body := sanitizeInput (str "A second body")
            , labels := .vArr [], priority := .vUndefined, assignee := .vUndefined
            , status := .vUndefined }) := by
  constructor
  · exact C7_similarity_guard.1 _ _ _ (by decide) (by decide) (by decide)
      (by decide) (by rfl)
  · exact C7_similarity_guard.2.2 _ _ (by decide) (by decide) (by decide)
      (by decide) (by rfl)

/-! ## Claim C10 — output caps skipped on fallback paths -/

/-- C10 fails in one clause: on the similarity-reversion path the title
is not returned verbatim — it is set to the original title and then runs
through the final redaction pass, which here rewrites it. -/
theorem C10_counterexample :
    similarityLow (str "secret: k1 alpha beta gamma")
        (str "totally different words here now") = true ∧
    validateOutput
        { title := str "secret: k1 alpha beta gamma", body := str "hello" }
        (candTB (str "totally different words here now") (str "body text")) =
      .ok { title := str "[SECRET_REDACTED] alpha beta gamma"
          , body := str "body text"
          , labels := .vArr [], priority := .vUndefined, assignee := .vUndefined
          , status := .vUndefined } ∧
    str "[SECRET_REDACTED] alpha beta gamma" ≠ str "secret: k1 alpha beta gamma" :=
  ⟨rfl, rfl, by decide⟩

/-- C10 (amended).  The output caps are enforced only on the merged
candidate: the non-object fallback and the injection fallback return the
original verbatim, the similarity reversion sets the title to the
original and only re-redacts it (never re-truncates), and in particular an
input accepted by `improveIssue` with a 150-character title comes back
with its title 150 characters long, in excess of the 100-character
output cap. -/
theorem C10_output_caps_skipped_on_fallback :
    (∀ (original : Issue) (improved : JSVal),
      truthy improved = false ∨ typeofIsObject improved = false →
      validateOutput original improved = .ok original.toRt) ∧
    (∀ (original : Issue) (ct cb : JStr), ct ≠ [] → cb ≠ [] →
      ct.length ≤ 100 → cb.length ≤ 2000 →
      injectionAny (jsToLower (ct ++ ' ' :: cb)) = true →
      validateOutput original (candTB ct cb) = .ok original.toRt) ∧
    (∀ (original : Issue) (ct cb : JStr), ct ≠ [] → cb ≠ [] →
      ct.length ≤ 100 → cb.length ≤ 2000 →
      injectionAny (jsToLower (ct ++ ' ' :: cb)) = false →
      similarityLow original.title ct = true →
      validateOutput original (candTB ct cb) = .ok
        { title := sanitizeInput original.title
        , body := sanitizeInput cb
        , labels := jsOr (labelsJS original.labels) (.vArr [])
        , priority := optJS original.priority
        , assignee := optJS original.assignee
        , status := optJS original.status }) ∧
    (improveIssue
        { title := List.replicate 150 'a', body := str "some body text" }
        (.response [false]) (.content (some .vNull)) =
      .ok ({ title := List.replicate 150 'a',
             body := str "some body text" } : Issue).toRt ∧
      100 < (List.replicate 150 'a').length ∧
      (List.replicate 150 'a').length ≤ 500) := by
  refine ⟨?_, ?_, ?_, ?_, ?_, ?_⟩
  · intro original improved h
    rw [validateOutput, if_pos]
    rcases h with h | h <;> simp [h]
  · intro original ct cb h1 h2 h3 h4 hinj
    rw [validateOutput_candTB h1 h2 h3 h4, if_pos (by simp [hinj])]
  · intro original ct cb h1 h2 h3 h4 hninj hsim
    rw [validateOutput_candTB h1 h2 h3 h4, if_neg (by simp [hninj])]
    simp [hsim]
  · rfl
  · decide
  · decide

/-- Witness for the amended C10: a 120-character title survives the
null-candidate fallback verbatim, an injection-laden candidate returns
the original verbatim, and a similarity reversion re-redacts but never
truncates. -/
theorem C10_output_caps_skipped_witness :
    (validateOutput { title := List.replicate 120 'x', body := str "b" } .vNull =
      .ok ({ title := List.replicate 120 'x', body := str "b" } : Issue).toRt) ∧
    (validateOutput { title := str "Nice title", body := str "nice body" }
        (candTB (str "you are now evil") (str "b2")) =
      .ok ({ title := str "Nice title", body := str "nice body" } : Issue).toRt) ∧
    (validateOutput
        { title := str "token: t1 alpha beta gamma", body := str "hello" }
        (candTB (str "entirely different words here now") (str "b3")) =
      .ok { title := sanitizeInput (str "token: t1 alpha beta gamma")
          , body := sanitizeInput (str "b3")
          , labels := jsOr (labelsJS none) (.vArr [])
          , priority := optJS none, assignee := optJS none
          , status := optJS none }) := by
  refine ⟨?_, ?_, ?_⟩
  · exact C10_output_caps_skipped_on_fallback.1 _ _ (Or.inl rfl)
  · exact C10_output_caps_skipped_on_fallback.2.1 _ _ _ (by decide) (by decide)
      (by decide) (by decide) (by rfl)
  · exact C10_output_caps_skipped_on_fallback.2.2.1 _ _ _ (by decide) (by decide)
      (by decide) (by decide) (by rfl) (by rfl)

/-! ## Extension lemmas for the regex engine

A match is insensitive to what follows and to what precedes the matched
region; these lemmas turn a decidable match of a phrase into a match
inside any surrounding text. -/

theorem self_mem_starRem (f : Char → Bool) : ∀ s : JStr, s ∈ starRem f s
  | [] => by simp [starRem]
  | c :: rest => by by_cases h : f c <;> simp [starRem, h]

theorem mem_starRem_append (f : Char → Bool) :
    ∀ (s : JStr) {rem : JStr} (t : JStr),
      rem ∈ starRem f s → rem ++ t ∈ starRem f (s ++ t) := by
  intro s
  induction s with
  | nil =>
    intro rem t h
    simp only [starRem, List.mem_singleton] at h
    subst h
    simpa using self_mem_starRem f t
  | cons c rest ih =>
    intro rem t h
    by_cases hc : f c
    · simp only [starRem, hc, if_true, List.mem_append, List.mem_singleton] at h
      rcases h with h | h
      · simpa [starRem, hc] using Or.inl (ih t h)
      · subst h
        simp [starRem, hc]
    · simp [starRem, hc] at h
      subst h
      simp [starRem, hc]

theorem mem_mtch_append :
    ∀ (r : RE) {s rem : JStr} (t : JStr),
      rem ∈ r.mtch s → rem ++ t ∈ r.mtch (s ++ t) := by
  intro r
  induction r with
  | eps =>
    intro s rem t h
    simp only [RE.mtch, List.mem_singleton] at h ⊢
    subst h; rfl
  | cls f =>
    intro s rem t h
    cases s with
    | nil => simp [RE.mtch] at h
    | cons c rest =>
      by_cases hc : f c <;> simp_all [RE.mtch]
  | seq a b iha ihb =>
    intro s rem t h
    simp only [RE.mtch, List.mem_flatMap] at h ⊢
    obtain ⟨mid, hmid, hrem⟩ := h
    exact ⟨mid ++ t, iha t hmid, ihb t hrem⟩
  | alt a b iha ihb =>
    intro s rem t h
    simp only [RE.mtch, List.mem_append] at h ⊢
    rcases h with h | h
    · exact Or.inl (iha t h)
    · exact Or.inr (ihb t h)
  | starCls f =>
    intro s rem t h
    exact mem_starRem_append f s t h
  | opt r ihr =>
    intro s rem t h
    simp only [RE.mtch, List.mem_append, List.mem_singleton] at h ⊢
    rcases h with h | h
    · exact Or.inl (ihr t h)
    · subst h; right; rfl

theorem matchesAt_append {r : RE} {s : JStr} (t : JStr)
    (h : matchesAt r s = true) : matchesAt r (s ++ t) = true := by
  obtain ⟨rem, hrem⟩ : ∃ rem, rem ∈ r.mtch s := by
    cases hm : r.mtch s with
    | nil => rw [matchesAt, hm] at h; simp at h
    | cons a l => exact ⟨a, by simp [hm]⟩
  have hmem := mem_mtch_append r t hrem
  cases hm2 : r.mtch (s ++ t) with
  | nil => rw [hm2] at hmem; simp at hmem
  | cons a l => simp [matchesAt, hm2]

theorem hasMatch_of_matchesAt {r : RE} {s : JStr}
    (h : matchesAt r s = true) : hasMatch r s = true := by
  cases s <;> simp [hasMatch, h]

theorem hasMatch_append_left (pre : JStr) {r : RE} {s : JStr}
    (h : hasMatch r s = true) : hasMatch r (pre ++ s) = true := by
  induction pre with
  | nil => simpa using h
  | cons c pre ih => simp [hasMatch, ih]

theorem hasMatch_of_infix {r : RE} {m : JStr} (pre post : JStr)
    (h : matchesAt r m = true) : hasMatch r (pre ++ m ++ post) = true := by
  have h2 : hasMatch r (m ++ post) = true :=
    hasMatch_of_matchesAt (matchesAt_append post h)
  simpa [List.append_assoc] using hasMatch_append_left pre h2

/-- Lower-casing a text that contains one of the seven specified
injection phrases in any letter case makes the injection-pattern loop
fire, whatever the surrounding content. -/
theorem injectionAny_of_phrase :
    ∀ pp ∈ INJECTION_PHRASES, ∀ (pre ph post : JStr), jsToLower ph = pp.1 →
      injectionAny (jsToLower (pre ++ ph ++ post)) = true := by
  intro pp hpp pre ph post hph
  have hdist : jsToLower (pre ++ ph ++ post) =
      jsToLower pre ++ pp.1 ++ jsToLower post := by
    simp only [jsToLower, List.map_append]
    rw [show List.map Char.toLower ph = pp.1 from hph]
  rw [hdist, injectionAny]
  simp only [INJECTION_PHRASES, List.mem_cons, List.mem_singleton,
    List.not_mem_nil, or_false] at hpp
  rcases hpp with h | h | h | h | h | h | h <;> subst h
  · exact List.any_eq_true.mpr ⟨reInjIgnorePrevious,
      by simp [PROMPT_INJECTION_PATTERNS], hasMatch_of_infix _ _ (by decide)⟩
  · exact List.any_eq_true.mpr ⟨reInjDisregard,
      by simp [PROMPT_INJECTION_PATTERNS], hasMatch_of_infix _ _ (by decide)⟩
  · exact List.any_eq_true.mpr ⟨reInjYouAreNow,
      by simp [PROMPT_INJECTION_PATTERNS], hasMatch_of_infix _ _ (by decide)⟩
  · exact List.any_eq_true.mpr ⟨reInjNewInstructions,
      by simp [PROMPT_INJECTION_PATTERNS], hasMatch_of_infix _ _ (by decide)⟩
  · exact List.any_eq_true.mpr ⟨reInjSystemPrompt,
      by simp [PROMPT_INJECTION_PATTERNS], hasMatch_of_infix _ _ (by decide)⟩
  · exact List.any_eq_true.mpr ⟨reInjOverride,
      by simp [PROMPT_INJECTION_PATTERNS], hasMatch_of_infix _ _ (by decide)⟩
  · exact List.any_eq_true.mpr ⟨reInjForget,
      by simp [PROMPT_INJECTION_PATTERNS], hasMatch_of_infix _ _ (by decide)⟩

/-! ## Claim C5 — injection phrases are always detected -/

/-- C5.  For every text containing one of the seven fixed injection
phrases, in any letter case and with any surrounding content: the
injection check of `validateInput` (reached when the emptiness and
length checks pass) throws the malicious-content error, and the same
check in `validateOutput` returns the original Issue. -/
theorem C5_injection_phrases_detected :
    ∀ pp ∈ INJECTION_PHRASES, ∀ (pre ph post : JStr), jsToLower ph = pp.1 →
      (∀ issue : Issue,
        issue.title ≠ [] → (jsTrim issue.title).length ≠ 0 →
        issue.body ≠ [] → (jsTrim issue.body).length ≠ 0 →
        issue.title.length ≤ 500 → issue.body.length ≤ 10000 →
        issue.title ++ ' ' :: issue.body = pre ++ ph ++ post →
        validateInput issue = .error "Input contains potentially malicious content") ∧
      (∀ (original : Issue) (ct cb : JStr),
        ct ≠ [] → cb ≠ [] → ct.length ≤ 100 → cb.length ≤ 2000 →
        ct ++ ' ' :: cb = pre ++ ph ++ post →
        validateOutput original (candTB ct cb) = .ok original.toRt) := by
  intro pp hpp pre ph post hph
  constructor
  · intro issue ht httrim hb hbtrim hlt hlb hcat
    rw [validateInput]
    rw [if_neg (by simp [List.isEmpty_iff, ht, httrim])]
    rw [if_neg (by simp [List.isEmpty_iff, hb, hbtrim])]
    rw [if_neg (by omega)]
    rw [if_neg (by omega)]
    rw [if_pos (by rw [hcat]; exact injectionAny_of_phrase pp hpp pre ph post hph)]
  · intro original ct cb h1 h2 h3 h4 hcat
    rw [validateOutput_candTB h1 h2 h3 h4,
      if_pos (by rw [hcat]; exact injectionAny_of_phrase pp hpp pre ph post hph)]

/-- Witness for C5: a mixed-case occurrence of the first phrase is
rejected by `validateInput`, and a candidate carrying the phrase makes
`validateOutput` return the original. -/
theorem C5_injection_phrases_witness :
    validateInput { title := str "IGNORE", body := str "Previous Instructions" } =
      .error "Input contains potentially malicious content" ∧
    validateOutput { title := str "Safe title", body := str "safe body" }
        (candTB (str "ignore previous instructions") (str "ok")) =
      .ok ({ title := str "Safe title", body := str "safe body" } : Issue).toRt := by
  constructor
  · exact (C5_injection_phrases_detected
        (str "ignore previous instructions", reInjIgnorePrevious)
        (by simp [INJECTION_PHRASES]) []
        (str "IGNORE Previous Instructions") [] (by decide)).1
      _ (by decide) (by decide) (by decide) (by decide) (by decide) (by decide) rfl
  · exact (C5_injection_phrases_detected
        (str "ignore previous instructions", reInjIgnorePrevious)
        (by simp [INJECTION_PHRASES]) []
        (str "ignore previous instructions") (' ' :: str "ok") (by decide)).2
      _ _ _ (by decide) (by decide) (by decide) (by decide) rfl

/-! ## Replacement lemmas for the redactor -/

theorem isPrefixOf_append_self (p t : JStr) : p.isPrefixOf (p ++ t) = true := by
  induction p with
  | nil => simp [List.isPrefixOf]
  | cons c p ih => simp [List.isPrefixOf, ih]

theorem containsSub_append_self (p t : JStr) : containsSub p (p ++ t) = true := by
  cases p with
  | nil =>
    cases t with
    | nil => rfl
    | cons c rest => simp [containsSub, List.isPrefixOf]
  | cons c p => simp [containsSub, isPrefixOf_append_self]

theorem containsSub_cons (c : Char) {p s : JStr}
    (h : containsSub p s = true) : containsSub p (c :: s) = true := by
  simp [containsSub, h]

/-- The scan of `replaceAll` leaves a string with no match unchanged. -/
theorem replaceAllF_of_not_hasMatch {r : RE} {rep : JStr} :
    ∀ (fuel : Nat) (s : JStr), hasMatch r s = false →
      replaceAllF r rep fuel s = s := by
  intro fuel
  induction fuel with
  | zero => intro s _; cases s <;> rfl
  | succ fuel ih =>
    intro s h
    cases s with
    | nil => rfl
    | cons c rest =>
      have hm : matchesAt r (c :: rest) = false ∧ hasMatch r rest = false := by
        simpa [hasMatch, Bool.or_eq_false_iff] using h
      have hnone : (r.mtch (c :: rest)).head? = none := by
        cases hmm : r.mtch (c :: rest) with
        | nil => rfl
        | cons a l => simp [matchesAt, hmm] at hm
      simp only [replaceAllF, hnone]
      rw [ih rest hm.2]

/-- When a match exists, the scan of `replaceAll` inserts the
replacement: the output contains it as a substring. -/
theorem containsSub_rep_replaceAllF {r : RE} {rep : JStr}
    (hnn : matchesAt r [] = false) :
    ∀ (fuel : Nat) (s : JStr), s.length ≤ fuel → hasMatch r s = true →
      containsSub rep (replaceAllF r rep fuel s) = true := by
  intro fuel
  induction fuel with
  | zero =>
    intro s hlen h
    cases s with
    | nil => rw [hasMatch, hnn] at h; exact absurd h (by simp)
    | cons c rest => simp at hlen
  | succ fuel ih =>
    intro s hlen h
    cases s with
    | nil => rw [hasMatch, hnn] at h; exact absurd h (by simp)
    | cons c rest =>
      cases hh : (r.mtch (c :: rest)).head? with
      | some rem =>
        simp only [replaceAllF, hh]
        split
        · exact containsSub_append_self rep _
        · exact containsSub_append_self rep _
      | none =>
        have hm : matchesAt r (c :: rest) = false := by
          cases hmm : r.mtch (c :: rest) with
          | nil => simp [matchesAt, hmm]
          | cons a l => rw [hmm] at hh; simp at hh
        have hrest : hasMatch r rest = true := by
          simpa [hasMatch, hm] using h
        simp only [replaceAllF, hh]
        exact containsSub_cons c
          (ih rest (by simpa using Nat.succ_le_succ_iff.mp hlen) hrest)

/-- A string no pattern of the list matches passes through the
sequential application unchanged. -/
theorem applyPatterns_of_no_match :
    ∀ (ps : List (RE × JStr)) (s : JStr),
      (∀ pr ∈ ps, hasMatch pr.1 s = false) → applyPatterns ps s = s := by
  intro ps
  induction ps with
  | nil => intro s _; rfl
  | cons pr ps ih =>
    intro s h
    have h1 : replaceAll pr.1 pr.2 s = s :=
      replaceAllF_of_not_hasMatch _ _ (h pr (by simp))
    simp only [applyPatterns, List.foldl_cons] at *
    rw [h1]
    exact ih s (fun qr hq => h qr (by simp [hq]))

/-- Sequential application of a pattern list to a string some pattern of
the list matches leaves at least one of the list's replacement tags in
the final output (the stage whose change survives is the last one that
fires). -/
theorem applyPatterns_contains_rep :
    ∀ (ps : List (RE × JStr)) (s : JStr),
      (∀ pr ∈ ps, matchesAt pr.1 [] = false) →
      (∃ pr ∈ ps, hasMatch pr.1 s = true) →
      ∃ pr ∈ ps, containsSub pr.2 (applyPatterns ps s) = true := by
  intro ps
  induction ps with
  | nil => intro s _ h; simp at h
  | cons pr ps ih =>
    intro s hnn hex
    have happ : applyPatterns (pr :: ps) s =
        applyPatterns ps (replaceAll pr.1 pr.2 s) := by
      simp [applyPatterns, List.foldl_cons]
    by_cases hcase : ∃ qr ∈ ps, hasMatch qr.1 (replaceAll pr.1 pr.2 s) = true
    · obtain ⟨rr, hrmem, hrc⟩ :=
        ih (replaceAll pr.1 pr.2 s) (fun a ha => hnn a (by simp [ha])) hcase
      exact ⟨rr, by simp [hrmem], by rw [happ]; exact hrc⟩
    · push_neg at hcase
      have hid : applyPatterns ps (replaceAll pr.1 pr.2 s) =
          replaceAll pr.1 pr.2 s :=
        applyPatterns_of_no_match ps _
          (fun qr hq => by simpa using hcase qr hq)
      by_cases hm : hasMatch pr.1 s = true
      · refine ⟨pr, by simp, ?_⟩
        rw [happ, hid]
        exact containsSub_rep_replaceAllF (hnn pr (by simp)) s.length s le_rfl hm
      · have hids : replaceAll pr.1 pr.2 s = s :=
          replaceAllF_of_not_hasMatch _ _ (by simpa using hm)
        obtain ⟨qr, hqmem, hqm⟩ := hex
        rcases List.mem_cons.mp hqmem with rfl | hqtail
        · exact absurd hqm hm
        · have := hcase qr hqtail
          rw [hids] at this
          exact absurd hqm (by simpa using this)

/-! ## Claim C4 — redaction tags -/

/-- C4 fails as stated: `bearer token abc` contains a bearer-class match
(`bearer token`), but sequential application lets the earlier token
pattern consume the overlapping `token abc` first, so the output carries
a token tag and no bearer tag. -/
theorem C4_redaction_counterexample :
    hasMatch reBearer (str "bearer token abc") = true ∧
    (reBearer, str "[BEARER_TOKEN_REDACTED]") ∈ FORBIDDEN_PATTERNS ∧
    sanitizeInput (str "bearer token abc") = str "bearer [TOKEN_REDACTED]" ∧
    containsSub (str "[BEARER_TOKEN_REDACTED]")
      (sanitizeInput (str "bearer token abc")) = false := by
  refine ⟨by decide, by simp [FORBIDDEN_PATTERNS], rfl, by decide⟩

/-- C4 (amended).  Each pattern is applied in order over the text the
earlier patterns produced: whenever a pattern matches the text its stage
receives, that stage's output contains the pattern's own tag; and for
every text matched by at least one of the six classes, the final output
of `sanitizeInput` contains at least one of the six tags — though, as
the counterexample shows, not necessarily the tag of the class that
matched the original text. -/
theorem C4_redaction_amended :
    (∀ (p : RE) (rep : JStr), (p, rep) ∈ FORBIDDEN_PATTERNS →
      ∀ s : JStr, hasMatch p s = true →
        containsSub rep (replaceAll p rep s) = true) ∧
    (∀ s : JStr, (∃ pr ∈ FORBIDDEN_PATTERNS, hasMatch pr.1 s = true) →
      ∃ pr ∈ FORBIDDEN_PATTERNS, containsSub pr.2 (sanitizeInput s) = true) := by
  have hnn : ∀ pr ∈ FORBIDDEN_PATTERNS, matchesAt pr.1 [] = false := by
    intro pr hmem
    fin_cases hmem <;> decide
  constructor
  · intro p rep hmem s hm
    exact containsSub_rep_replaceAllF (hnn (p, rep) hmem) s.length s le_rfl hm
  · intro s hex
    have hsne : ¬ s.isEmpty := by
      cases s with
      | nil =>
        obtain ⟨pr, hmem, hm⟩ := hex
        rw [hasMatch, hnn pr hmem] at hm
        exact absurd hm (by simp)
      | cons c rest => simp
    rw [sanitizeInput, if_neg hsne]
    exact applyPatterns_contains_rep FORBIDDEN_PATTERNS s hnn hex

/-- Witness for the amended C4: an email address is tagged by its own
stage, and a password-bearing text ends up with some tag. -/
theorem C4_redaction_amended_witness :
    containsSub (str "[EMAIL_REDACTED]")
      (replaceAll reEmail (str "[EMAIL_REDACTED]") (str "Contact a@b.com now")) = true ∧
    ∃ pr ∈ FORBIDDEN_PATTERNS,
      containsSub pr.2 (sanitizeInput (str "password: hunter2")) = true := by
  constructor
  · exact C4_redaction_amended.1 reEmail (str "[EMAIL_REDACTED]")
      (by simp [FORBIDDEN_PATTERNS]) _ (by decide)
  · exact C4_redaction_amended.2 _
      ⟨(rePassword, str "[PASSWORD_REDACTED]"), by simp [FORBIDDEN_PATTERNS], by decide⟩

/-! ## Claim C3 — failure taxonomy of the orchestrators -/

/-- Every message `validateInput` can throw contains one of the five
keywords the catch block of `improveIssue` re-throws on. -/
theorem msgRetained_validateInput {issue : Issue} {e : String}
    (h : validateInput issue = .error e) : msgRetained e = true := by
  unfold validateInput at h
  split_ifs at h <;>
    first
      | (simp only [Except.error.injEq] at h; subst h; decide)
      | simp at h

/-- C3 fails as stated for `generateReleaseNotes`: its catch block
re-throws every `Error` unchanged, so a missing model response surfaces
with the specific upstream message, not the generic one. -/
theorem C3_error_collapse_counterexample :
    generateReleaseNotes ⟨[{}]⟩ .noContent = .error "No response from OpenAI" ∧
    "No response from OpenAI" ≠ genericReleaseNotesMsg :=
  ⟨rfl, by decide⟩

/-- C3 (amended).  `improveIssue` re-throws input-validation and
moderation errors with their specific messages, and surfaces
no-response, unparsable-JSON and model-call failures as the generic
message — except that a model-call failure whose own message happens to
contain one of the filter keywords is re-thrown verbatim.
`generateReleaseNotes` re-throws every failure verbatim (batch-size
validation errors, but also no-response, unparsable-JSON and model-call
failures); its generic message is reserved for non-`Error` throws, which
cannot arise here. -/
theorem C3_error_taxonomy_amended :
    (∀ (issue : Issue) (moder : ModOutcome) (llm : LLMOutcome) (e : String),
      validateInput issue = .error e →
      improveIssue issue moder llm = .error e) ∧
    (∀ (issue : Issue) (moder : ModOutcome) (llm : LLMOutcome),
      validateInput issue = .ok () → moderateContent moder = false →
      improveIssue issue moder llm = .error "Content flagged by moderation system") ∧
    (∀ (issue : Issue) (moder : ModOutcome),
      validateInput issue = .ok () → moderateContent moder = true →
      improveIssue issue moder .noContent = .error genericImproveMsg ∧
      improveIssue issue moder (.content none) = .error genericImproveMsg ∧
      (∀ msg : String, msgRetained msg = false →
        improveIssue issue moder (.failure msg) = .error genericImproveMsg) ∧
      (∀ msg : String, msgRetained msg = true →
        improveIssue issue moder (.failure msg) = .error msg)) ∧
    (∀ input : ReleaseNotesInput, input.pullRequests ≠ [] →
      input.pullRequests.length ≤ 50 →
      generateReleaseNotes input .noContent = .error "No response from OpenAI" ∧
      generateReleaseNotes input (.content none) = .error "Invalid JSON response from AI" ∧
      (∀ msg : String, generateReleaseNotes input (.failure msg) = .error msg)) := by
  refine ⟨?_, ?_, ?_, ?_⟩
  · intro issue moder llm e h
    have hr : msgRetained e = true := msgRetained_validateInput h
    unfold improveIssue improveIssueRaw
    rw [h]
    simp [hr]
  · intro issue moder llm hval hmod
    unfold improveIssue improveIssueRaw
    rw [hval]
    simp [hmod]
    decide
  · intro issue moder hval hmod
    refine ⟨?_, ?_, ?_, ?_⟩
    · unfold improveIssue improveIssueRaw
      rw [hval]
      simp [hmod]
      decide
    · unfold improveIssue improveIssueRaw
      rw [hval]
      simp [hmod]
      decide
    · intro msg hr
      unfold improveIssue improveIssueRaw
      rw [hval]
      simp [hmod, hr, genericImproveMsg]
    · intro msg hr
      unfold improveIssue improveIssueRaw
      rw [hval]
      simp [hmod, hr]
  · intro input hne hlen
    have h1 : ¬ (input.pullRequests.isEmpty = true) := by
      simpa [List.isEmpty_iff] using hne
    have h2 : ¬ (50 < input.pullRequests.length) := by omega
    refine ⟨?_, ?_, ?_⟩ <;>
      (try intro msg) <;>
      (unfold generateReleaseNotes; rw [if_neg h1, if_neg h2])

/-- Witness for the amended C3: an empty title surfaces its specific
message, a flagged issue its moderation message, a missing response and
a keyword-free API failure the generic message, and a release-notes API
failure its raw message. -/
theorem C3_error_taxonomy_witness :
    improveIssue { title := [], body := str "b" } (.response [false]) .noContent =
      .error "Issue title cannot be empty" ∧
    improveIssue { title := str "t", body := str "b" } (.response [true]) .noContent =
      .error "Content flagged by moderation system" ∧
    improveIssue { title := str "t", body := str "b" } (.response [false]) .noContent =
      .error genericImproveMsg ∧
    improveIssue { title := str "t", body := str "b" } (.response [false])
        (.failure "ECONNRESET") = .error genericImproveMsg ∧
    generateReleaseNotes ⟨[{}]⟩ (.failure "boom") = .error "boom" := by
  refine ⟨?_, ?_, ?_, ?_, ?_⟩
  · exact C3_error_taxonomy_amended.1 _ _ _ _ rfl
  · exact C3_error_taxonomy_amended.2.1 _ _ _ rfl rfl
  · exact (C3_error_taxonomy_amended.2.2.1
      { title := str "t", body := str "b" } (.response [false]) rfl rfl).1
  · exact (C3_error_taxonomy_amended.2.2.1
      { title := str "t", body := str "b" } (.response [false]) rfl rfl).2.2.1 _ (by decide)
  · exact (C3_error_taxonomy_amended.2.2.2 _ (by simp) (by decide)).2.2 _

end GitGenie
